import Mathlib

/-!
# Food ordering system: order / inventory consistency

A shallow embedding of `backend/controllers/orderController.js`,
`backend/controllers/itemController.js` and the Mongoose schemas of
`backend/models/Item.js` (which also carries the Order schema).

Conventions of the embedding

* A Mongo collection is a finite map from document id to document, written as
  a function `Id → Option Doc`; the `_id` of a document is the key it is
  stored under.
* JavaScript numbers (price, stock, quantity, totalAmount) are integers (`Int`).
* A request handler is a function from the store before the request to the
  outcome of the request and the store after it.  `next(new ErrorResponse ..)`
  is `Failure.errorResponse`, a rejected Mongoose validation (forwarded to
  `next` by `asyncHandler`) is `Failure.validationError`.
* `req.io.emit` appends to the log `State.emitted`.
-/

namespace FoodOrdering

abbrev ItemId := Nat
abbrev OrderId := Nat
abbrev UserId := Nat

/-- Values of `ItemSchema.category` (`enum: ['food', 'snack', 'drink']`). -/
inductive Category where
  | food | snack | drink
  deriving DecidableEq, Repr

/-- Values of `OrderSchema.paymentMethod` (`enum: ['qr', 'cod']`). -/
inductive PaymentMethod where
  | qr | cod
  deriving DecidableEq, Repr

/-- Values of `OrderSchema.paymentStatus` (`enum: ['pending', 'completed']`). -/
inductive PaymentStatus where
  | pending | completed
  deriving DecidableEq, Repr

/-- Values of `OrderSchema.orderStatus`
(`enum: ['placed', 'processing', 'delivered']`). -/
inductive OrderStatus where
  | placed | processing | delivered
  deriving DecidableEq, Repr

/-- Role of the authenticated requester (`req.user.role`). -/
inductive Role where
  | user | admin
  deriving DecidableEq, Repr

/-- Document of `ItemSchema` (`createdAt` is not represented). -/
structure Item where
  name : String
  description : String
  price : Int
  category : Category
  subCategory : String
  stock : Int
  imageUrl : String
  isAvailable : Bool
  deriving DecidableEq, Repr

/-- Sub-document of `OrderItemSchema`. -/
structure OrderItem where
  item : ItemId
  name : String
  price : Int
  quantity : Int
  deriving DecidableEq, Repr

/-- Document of `OrderSchema` (`createdAt` is not represented). -/
structure Order where
  user : UserId
  items : List OrderItem
  totalAmount : Int
  paymentMethod : PaymentMethod
  paymentStatus : PaymentStatus
  orderStatus : OrderStatus
  deriving DecidableEq, Repr

/-- The authenticated requester `req.user`. -/
structure User where
  id : UserId
  name : String
  role : Role
  deriving DecidableEq, Repr

/-- Messages of the `ErrorResponse` objects built by the controllers. -/
inductive Reason where
  /-- Text 'Please add items to your order'. -/
  | addItems
  /-- Text 'Item not found with id of ..'. -/
  | itemNotFound (id : ItemId)
  /-- Text 'Insufficient stock for ..'. -/
  | insufficientStock (name : String)
  /-- Text 'Order not found with id of ..'. -/
  | orderNotFound (id : OrderId)
  /-- Text 'Not authorized to update this order'. -/
  | notAuthorized
  /-- Text 'Please upload an image'. -/
  | uploadImage
  deriving DecidableEq, Repr

/-- What a handler passes to `next`. -/
inductive Failure where
  | errorResponse (reason : Reason) (statusCode : Nat)
  | validationError
  deriving DecidableEq, Repr

/-- Equality of handler outcomes is decidable. -/
instance decEqExcept {ε α : Type} [DecidableEq ε] [DecidableEq α] : DecidableEq (Except ε α)
  | .ok a, .ok b => if h : a = b then isTrue (by rw [h]) else isFalse (fun e => h (by cases e; rfl))
  | .error a, .error b =>
    if h : a = b then isTrue (by rw [h]) else isFalse (fun e => h (by cases e; rfl))
  | .ok _, .error _ => isFalse (fun e => by cases e)
  | .error _, .ok _ => isFalse (fun e => by cases e)

/-- Events sent through `req.io`. -/
inductive Event where
  | newOrder (orderId : OrderId) (userId : UserId) (userName : String)
      (totalAmount : Int) (paymentMethod : PaymentMethod)
  | codOrder (orderId : OrderId) (userName : String) (totalAmount : Int)
  | orderStatusUpdate (orderId : OrderId) (status : OrderStatus)
      (paymentStatus : PaymentStatus)
  /-- Sent to the room `user:<room>` only. -/
  | orderUpdate (room : UserId) (orderId : OrderId) (status : OrderStatus)
  | stockUpdate (item : ItemId) (stock : Int)
  | paymentUpdate (orderId : OrderId) (paymentStatus : PaymentStatus)
  | itemUpdate (item : ItemId) (data : Item)
  | itemDelete (item : ItemId)
  deriving DecidableEq, Repr

/-- The two collections and the log of emitted socket events. -/
structure State where
  items : ItemId → Option Item
  orders : OrderId → Option Order
  emitted : List Event

/-- Store document `d` under key `id`. -/
def put {α : Type} (m : Nat → Option α) (id : Nat) (d : α) : Nat → Option α :=
  fun k => if k = id then some d else m k

/-- Remove the document stored under key `id`. -/
def remove {α : Type} (m : Nat → Option α) (id : Nat) : Nat → Option α :=
  fun k => if k = id then none else m k

/-! ## orderController.js -/

/-- One element of `req.body.items`. -/
structure OrderRequestItem where
  item : ItemId
  quantity : Int
  deriving DecidableEq, Repr

/-- Body of `POST /api/orders`.  `items = none` is a missing list,
`paymentMethod = none` a missing value or one outside the schema's enum. -/
structure CreateOrderBody where
  items : Option (List OrderRequestItem)
  paymentMethod : Option PaymentMethod
  deriving DecidableEq, Repr

/-- Modelled from the spec: `utils/qrGenerator.generateQRCode` is not part of
the sources; it is "a pure function `(orderId, amount) → artifact`", and the
artifact is kept symbolic. -/
structure QRCode where
  orderId : OrderId
  amount : Int
  deriving DecidableEq, Repr

/-- Modelled from the spec: the payment-reference generator, see `QRCode`. -/
def generateQRCode (orderId : OrderId) (amount : Int) : QRCode :=
  ⟨orderId, amount⟩

/-- Success body of `createOrder` (`res.status(201).json(..)`). -/
structure CreateOrderResponse where
  data : Order
  paymentQR : Option QRCode
  deriving DecidableEq, Repr

/-- The loop "Calculate total and check stock" of `createOrder` (lines 19-40):
`totalAmount` and `orderItems` are the two accumulators. -/
def createOrderLoop (items : ItemId → Option Item) :
    List OrderRequestItem → Int → List OrderItem → Except Failure (Int × List OrderItem)
  | [], totalAmount, orderItems => .ok (totalAmount, orderItems)
  | orderItem :: rest, totalAmount, orderItems =>
    match items orderItem.item with
    | none => .error (.errorResponse (.itemNotFound orderItem.item) 404)
    | some item =>
      if item.stock < orderItem.quantity then
        .error (.errorResponse (.insufficientStock item.name) 400)
      else
        createOrderLoop items rest (totalAmount + item.price * orderItem.quantity)
          (orderItems ++ [⟨orderItem.item, item.name, item.price, orderItem.quantity⟩])

/-- Validators of `OrderItemSchema`: `quantity` has `min: 1`. -/
def validateOrderItem (l : OrderItem) : Bool :=
  decide (1 ≤ l.quantity)

/-- The call `Order.create` of `createOrder`: the document is validated against
`OrderSchema` (every line by `validateOrderItem`, `paymentMethod` required and
in the enum) and stored under the generated id `newId` with the schema
defaults `paymentStatus = pending`, `orderStatus = placed`. -/
def Order.create (orders : OrderId → Option Order) (newId : OrderId) (user : UserId)
    (items : List OrderItem) (totalAmount : Int) (paymentMethod : Option PaymentMethod) :
    Except Failure (Order × PaymentMethod × (OrderId → Option Order)) :=
  match paymentMethod with
  | none => .error .validationError
  | some method =>
    if items.all validateOrderItem then
      let order : Order := ⟨user, items, totalAmount, method, .pending, .placed⟩
      .ok (order, method, put orders newId order)
    else
      .error .validationError

/-- Handler `createOrder` (`POST /api/orders`); `newId` is the `_id` generated
for the new document. -/
def createOrder (s : State) (newId : OrderId) (user : User) (body : CreateOrderBody) :
    Except Failure CreateOrderResponse × State :=
  match body.items with
  | none => (.error (.errorResponse .addItems 400), s)
  | some [] => (.error (.errorResponse .addItems 400), s)
  | some (i :: is) =>
    match createOrderLoop s.items (i :: is) 0 [] with
    | .error e => (.error e, s)
    | .ok (totalAmount, orderItems) =>
      match Order.create s.orders newId user.id orderItems totalAmount body.paymentMethod with
      | .error e => (.error e, s)
      | .ok (order, paymentMethod, orders) =>
        let paymentQR :=
          if paymentMethod = .qr then some (generateQRCode newId totalAmount) else none
        let emitted := s.emitted ++
          [Event.newOrder newId user.id user.name totalAmount paymentMethod]
        let emitted :=
          if paymentMethod = .cod then
            emitted ++ [Event.codOrder newId user.name totalAmount]
          else emitted
        (.ok ⟨order, paymentQR⟩, ⟨s.items, orders, emitted⟩)

/-- Handler `updateOrderStatus` (`PUT /api/orders/:id/status`). -/
def updateOrderStatus (s : State) (id : OrderId) (status : OrderStatus) :
    Except Failure Order × State :=
  match s.orders id with
  | none => (.error (.errorResponse (.orderNotFound id) 404), s)
  | some found =>
    -- findByIdAndUpdate(id, { orderStatus: status }, { new: true, .. })
    let order : Order := { found with orderStatus := status }
    let orders := put s.orders id order
    -- If order is delivered, update payment status for COD orders
    let order : Order :=
      if status = .delivered ∧ order.paymentMethod = .cod then
        { order with paymentStatus := .completed }
      else order
    let orders :=
      if status = .delivered ∧ order.paymentMethod = .cod then put orders id order
      else orders
    let emitted := s.emitted ++
      [Event.orderStatusUpdate id order.orderStatus order.paymentStatus,
       Event.orderUpdate order.user id order.orderStatus]
    (.ok order, ⟨s.items, orders, emitted⟩)

/-- The stock update of one order line in `completePayment` (lines 193-194):
`item.stock = Math.max(0, item.stock - quantity)` and
`item.isAvailable = item.stock > 0`. -/
def debit (item : Item) (quantity : Int) : Item :=
  let item : Item := { item with stock := max 0 (item.stock - quantity) }
  { item with isAvailable := decide (item.stock > 0) }

/-- Body of the loop "Update stock for each item" of `completePayment`
(lines 189-200) for one line: a missing item is skipped, a found one is
debited, saved and announced by a `stockUpdate` event. -/
def debitLine (s : State) (orderItem : OrderItem) : State :=
  match s.items orderItem.item with
  | none => s
  | some item =>
    let item := debit item orderItem.quantity
    ⟨put s.items orderItem.item item, s.orders,
      s.emitted ++ [Event.stockUpdate orderItem.item item.stock]⟩

/-- Handler `completePayment` (`PUT /api/orders/:id/payment`). -/
def completePayment (s : State) (id : OrderId) (user : User) :
    Except Failure Order × State :=
  match s.orders id with
  | none => (.error (.errorResponse (.orderNotFound id) 404), s)
  | some found =>
    if found.user ≠ user.id ∧ user.role ≠ .admin then
      (.error (.errorResponse .notAuthorized 401), s)
    else
      let order : Order := { found with paymentStatus := .completed }
      let s : State := ⟨s.items, put s.orders id order, s.emitted⟩
      let s : State := order.items.foldl debitLine s
      (.ok order, ⟨s.items, s.orders, s.emitted ++ [Event.paymentUpdate id .completed]⟩)

/-! ## itemController.js -/

/-- The setter `trim: true` of `ItemSchema.name` (blanks, tabs and line breaks
are removed at both ends). -/
def trim (s : String) : String :=
  String.mk ((s.toList.dropWhile Char.isWhitespace).reverse.dropWhile Char.isWhitespace).reverse

/-- Validators of `ItemSchema`: the text fields are `required` (the empty
string is rejected), `stock` has `min: 0`.  Missing or ill-typed fields and a
category outside the enum are excluded by the types. -/
def validateItem (i : Item) : Bool :=
  i.name ≠ "" && i.description ≠ "" && i.subCategory ≠ "" && decide (0 ≤ i.stock) &&
    i.imageUrl ≠ ""

/-- The uploaded file `req.file`; `location` is the URL the blob storage
reports for it. -/
structure File where
  location : String
  deriving DecidableEq, Repr

/-- Function `uploadToS3` of `middleware/upload.js`: returns `data.Location`. -/
def uploadToS3 (file : File) : String :=
  file.location

/-- Body of `POST /api/items`. -/
structure CreateItemBody where
  name : String
  description : String
  price : Int
  category : Category
  subCategory : String
  stock : Int
  deriving DecidableEq, Repr

/-- Handler `createItem` (`POST /api/items`); `newId` is the `_id` generated
for the new document.  `Item.create` is given no `isAvailable`, so the schema
default `true` is stored. -/
def createItem (s : State) (newId : ItemId) (body : CreateItemBody) (file : Option File) :
    Except Failure Item × State :=
  match file with
  | none => (.error (.errorResponse .uploadImage 400), s)
  | some file =>
    let imageUrl := uploadToS3 file
    let item : Item :=
      { name := trim body.name, description := body.description, price := body.price,
        category := body.category, subCategory := body.subCategory, stock := body.stock,
        imageUrl := imageUrl, isAvailable := true }
    if validateItem item then
      (.ok item, ⟨put s.items newId item, s.orders,
        s.emitted ++ [Event.stockUpdate newId item.stock]⟩)
    else
      (.error .validationError, s)

/-- Body of `PUT /api/items/:id`: any subset of the paths of `ItemSchema`. -/
structure UpdateItemBody where
  name : Option String
  description : Option String
  price : Option Int
  category : Option Category
  subCategory : Option String
  stock : Option Int
  imageUrl : Option String
  isAvailable : Option Bool
  deriving DecidableEq, Repr

/-- The update `findByIdAndUpdate(id, body)`: every path present in the body
replaces the stored value, the others are kept. -/
def applyUpdate (item : Item) (body : UpdateItemBody) : Item :=
  { name := (body.name.map trim).getD item.name,
    description := body.description.getD item.description,
    price := body.price.getD item.price,
    category := body.category.getD item.category,
    subCategory := body.subCategory.getD item.subCategory,
    stock := body.stock.getD item.stock,
    imageUrl := body.imageUrl.getD item.imageUrl,
    isAvailable := body.isAvailable.getD item.isAvailable }

/-- Update validators (`runValidators: true`): the validators of the paths
present in the body. -/
def validateUpdate (body : UpdateItemBody) : Bool :=
  (body.name.map trim).all (· ≠ "") && body.description.all (· ≠ "") &&
    body.subCategory.all (· ≠ "") && body.stock.all (fun n => decide (0 ≤ n)) &&
    body.imageUrl.all (· ≠ "")

/-- Handler `updateItem` (`PUT /api/items/:id`). -/
def updateItem (s : State) (id : ItemId) (body : UpdateItemBody) (file : Option File) :
    Except Failure Item × State :=
  match s.items id with
  | none => (.error (.errorResponse (.itemNotFound id) 404), s)
  | some found =>
    -- Check if image is being updated
    let body : UpdateItemBody :=
      match file with
      | some file => { body with imageUrl := some (uploadToS3 file) }
      | none => body
    if validateUpdate body then
      let item := applyUpdate found body
      (.ok item, ⟨put s.items id item, s.orders, s.emitted ++ [Event.itemUpdate id item]⟩)
    else
      (.error .validationError, s)

/-- Handler `deleteItem` (`DELETE /api/items/:id`). -/
def deleteItem (s : State) (id : ItemId) : Except Failure Unit × State :=
  match s.items id with
  | none => (.error (.errorResponse (.itemNotFound id) 404), s)
  | some _ => (.ok (), ⟨remove s.items id, s.orders, s.emitted ++ [Event.itemDelete id]⟩)

/-- Handler `updateItemStock` (`PUT /api/items/:id/stock`): the update is
`{ stock, isAvailable: stock > 0 }`, validated (`min: 0`) before it is applied. -/
def updateItemStock (s : State) (id : ItemId) (stock : Int) :
    Except Failure Item × State :=
  if 0 ≤ stock then
    match s.items id with
    | none => (.error (.errorResponse (.itemNotFound id) 404), s)
    | some found =>
      let item : Item := { found with stock := stock, isAvailable := decide (stock > 0) }
      (.ok item, ⟨put s.items id item, s.orders, s.emitted ++ [Event.stockUpdate id item.stock]⟩)
  else
    (.error .validationError, s)

/-! ## Sample data -/

/-- A drink with five units in stock at price 10. -/
def tea : Item :=
  ⟨"Tea", "Hot tea", 10, .drink, "hot", 5, "img/tea.png", true⟩

/-- A snack with two units in stock at price 4. -/
def chips : Item :=
  ⟨"Chips", "Salted", 4, .snack, "crisps", 2, "img/chips.png", true⟩

/-- A customer. -/
def alice : User := ⟨1, "Alice", .user⟩

/-- Another customer. -/
def bob : User := ⟨2, "Bob", .user⟩

/-- A member of staff. -/
def carol : User := ⟨3, "Carol", .admin⟩

/-- A catalog of two items (ids 1 and 2), no orders, nothing emitted. -/
def shop : State :=
  ⟨put (put (fun _ => none) 1 tea) 2 chips, fun _ => none, []⟩

/-- The items after each of a sequence of debits of one item, in order. -/
def debitTrace : Item → List Int → List Item
  | _, [] => []
  | item, q :: qs => debit item q :: debitTrace (debit item q) qs

/-- The shop after Alice ordered three teas, cash on delivery, as order 7. -/
def shopWithOrder : State :=
  (createOrder shop 7 alice ⟨some [⟨1, 3⟩], some .cod⟩).2

/-- The shop after order 7 was marked delivered. -/
def shopDelivered : State :=
  (updateOrderStatus shopWithOrder 7 .delivered).2

/-- A sequence of debits of one item, in order. -/
def debitMany (item : Item) (qs : List Int) : Item :=
  qs.foldl debit item

/-- The quantities of the lines that reference item `id`, in line order. -/
def quantitiesFor (id : ItemId) (lines : List OrderItem) : List Int :=
  (lines.filter (fun l => l.item = id)).map (·.quantity)

/-- The `stockUpdate` event expected for line `i` of `lines` when payment is
completed against the catalog `items`: none when the line's item does not
exist, else the item's stock after the debits of the lines up to and including
line `i` that reference it. -/
def expectedStockEvent (items : ItemId → Option Item) (lines : List OrderItem) (i : Nat) :
    Option Event :=
  match lines[i]? with
  | none => none
  | some l =>
    (items l.item).map fun it =>
      Event.stockUpdate l.item (debitMany it (quantitiesFor l.item (lines.take (i + 1)))).stock

/-- The `stockUpdate` events expected of one `completePayment` call, in line
order. -/
def expectedStockEvents (items : ItemId → Option Item) (lines : List OrderItem) : List Event :=
  (List.range lines.length).filterMap (expectedStockEvent items lines)

/-- A cake with one unit in stock at price 7. -/
def cake : Item :=
  ⟨"Cake", "Lemon", 7, .food, "sweet", 1, "img/cake.png", true⟩

/-- The lines of Bob's order 8: three teas, a cake, four more teas. -/
def bobsLines : List OrderItem :=
  [⟨1, "Tea", 10, 3⟩, ⟨3, "Cake", 7, 1⟩, ⟨1, "Tea", 10, 4⟩]

/-- The shop with a cake added as item 3, after Bob ordered three teas, a cake
and four more teas as order 8 (paying by QR code) and the cake was deleted. -/
def shopAfterDelete : State :=
  (deleteItem
    (createOrder ⟨put shop.items 3 cake, shop.orders, shop.emitted⟩ 8 bob
      ⟨some [⟨1, 3⟩, ⟨3, 1⟩, ⟨1, 4⟩], some .qr⟩).2 3).2

/-- A requested line offends when its item is unknown or its quantity exceeds
the item's current stock. -/
def offends (items : ItemId → Option Item) (l : OrderRequestItem) : Bool :=
  match items l.item with
  | none => true
  | some it => decide (it.stock < l.quantity)

/-- Catalog price of the line's item times the requested quantity. -/
def lineAmount (items : ItemId → Option Item) (l : OrderRequestItem) : Int :=
  match items l.item with
  | none => 0
  | some it => it.price * l.quantity

/-- The order line a requested line stands for: the item's id, its name and
price in the catalog, and the requested quantity. -/
def snapshot (items : ItemId → Option Item) (l : OrderRequestItem) : Option OrderItem :=
  (items l.item).map fun it => ⟨l.item, it.name, it.price, l.quantity⟩

/-! # Theorems -/

/-! ## Stock debit -/

theorem debit_stock (item : Item) (q : Int) :
    (debit item q).stock = max 0 (item.stock - q) := rfl

theorem debit_isAvailable (item : Item) (q : Int) :
    (debit item q).isAvailable = decide ((debit item q).stock > 0) := rfl

theorem debit_stock_nonneg (item : Item) (q : Int) : 0 ≤ (debit item q).stock := by
  rw [debit_stock]
  exact le_max_left _ _

/-- C4: after each debit of a sequence of debits (any quantities) the item's
stock is non-negative and `isAvailable` equals `stock > 0`, and one debit of
`q` from stock `s` leaves exactly `max 0 (s - q)`.  The bound on the initial
stock is not needed. -/
theorem debit_sequence_invariant (item : Item) (qs : List Int) (q : Int) :
    (∀ i ∈ debitTrace item qs, 0 ≤ i.stock ∧ i.isAvailable = decide (i.stock > 0)) ∧
      (debitTrace item qs).length = qs.length ∧
      (debit item q).stock = max 0 (item.stock - q) := by
  refine ⟨?_, ?_, debit_stock item q⟩
  · induction qs generalizing item with
    | nil => intro i hi; simp [debitTrace] at hi
    | cons a as ih =>
      intro i hi
      simp only [debitTrace, List.mem_cons] at hi
      rcases hi with rfl | hi
      · exact ⟨debit_stock_nonneg item a, debit_isAvailable item a⟩
      · exact ih (debit item a) i hi
  · induction qs generalizing item with
    | nil => rfl
    | cons a as ih => simp [debitTrace, ih]

theorem debit_sequence_invariant_witness :
    (0 ≤ (debit (debit tea 3) 4).stock ∧
        (debit (debit tea 3) 4).isAvailable = decide ((debit (debit tea 3) 4).stock > 0)) ∧
      (debitTrace tea [3, 4, -2]).map (·.stock) = [2, 0, 2] ∧
      (debit tea 7).stock = max 0 (tea.stock - 7) :=
  ⟨(debit_sequence_invariant tea [3, 4, -2] 7).1 (debit (debit tea 3) 4) (by decide),
    by decide, (debit_sequence_invariant tea [3, 4, -2] 7).2.2⟩

/-! ## createOrder -/

/-- C3: `createOrder` never writes the item collection: whatever the outcome,
every item (so its stock and `isAvailable`) is as before the call. -/
theorem createOrder_keeps_items (s : State) (newId : OrderId) (user : User)
    (body : CreateOrderBody) :
    (createOrder s newId user body).2.items = s.items := by
  unfold createOrder
  repeat (first | rfl | split)

/-! ## updateOrderStatus -/

/-- C6: on an existing order `updateOrderStatus` succeeds and the stored order
has `paymentStatus = completed` when the new status is `delivered` and the
payment method is `cod`, and its previous `paymentStatus` in every other case. -/
theorem updateOrderStatus_paymentStatus (s : State) (id : OrderId) (status : OrderStatus)
    (o : Order) (h : s.orders id = some o) :
    ∃ o', (updateOrderStatus s id status).1 = .ok o' ∧
      (updateOrderStatus s id status).2.orders id = some o' ∧
      o'.paymentStatus =
        if status = .delivered ∧ o.paymentMethod = .cod then .completed else o.paymentStatus := by
  unfold updateOrderStatus
  simp only [h]
  by_cases hc : status = .delivered ∧ o.paymentMethod = .cod
  · simp [hc, put]
  · simp [hc, put]

theorem updateOrderStatus_paymentStatus_witness :
    ∃ o', (updateOrderStatus shopWithOrder 7 .delivered).1 = .ok o' ∧
      (updateOrderStatus shopWithOrder 7 .delivered).2.orders 7 = some o' ∧
      o'.paymentStatus = .completed :=
  updateOrderStatus_paymentStatus shopWithOrder 7 .delivered
    ⟨1, [⟨1, "Tea", 10, 3⟩], 30, .cod, .pending, .placed⟩ (by decide)

/-- C7, as stated, fails: on a delivered order a request for `processing` is
accepted and the stored `orderStatus` goes back to `processing`. -/
theorem updateOrderStatus_regresses :
    (shopDelivered.orders 7).map (·.orderStatus) = some .delivered ∧
      (updateOrderStatus shopDelivered 7 .processing).1 =
        .ok ⟨1, [⟨1, "Tea", 10, 3⟩], 30, .cod, .completed, .processing⟩ ∧
      ((updateOrderStatus shopDelivered 7 .processing).2.orders 7).map (·.orderStatus) =
        some .processing := by
  decide

/-- C7, amended: `updateOrderStatus` does not compare the requested status with
the current one; on an existing order it succeeds for every requested status
and stores it as `orderStatus`, and on an absent order it fails with the 404
`orderNotFound` response and changes nothing. -/
theorem updateOrderStatus_sets_status (s : State) (id : OrderId) (status : OrderStatus) :
    (∀ o, s.orders id = some o →
      ∃ o', (updateOrderStatus s id status).1 = .ok o' ∧
        (updateOrderStatus s id status).2.orders id = some o' ∧ o'.orderStatus = status) ∧
    (s.orders id = none →
      updateOrderStatus s id status = (.error (.errorResponse (.orderNotFound id) 404), s)) := by
  constructor
  · intro o h
    unfold updateOrderStatus
    simp only [h]
    by_cases hc : status = .delivered ∧ o.paymentMethod = .cod
    · simp [hc, put]
    · simp [hc, put]
  · intro h
    unfold updateOrderStatus
    simp only [h]

theorem updateOrderStatus_sets_status_witness :
    (∃ o', (updateOrderStatus shopDelivered 7 .placed).1 = .ok o' ∧
        (updateOrderStatus shopDelivered 7 .placed).2.orders 7 = some o' ∧
        o'.orderStatus = .placed) ∧
      updateOrderStatus shop 7 .placed = (.error (.errorResponse (.orderNotFound 7) 404), shop) :=
  ⟨(updateOrderStatus_sets_status shopDelivered 7 .placed).1
      ⟨1, [⟨1, "Tea", 10, 3⟩], 30, .cod, .completed, .delivered⟩ (by decide),
    (updateOrderStatus_sets_status shop 7 .placed).2 (by decide)⟩

/-! ## completePayment -/

theorem foldl_debitLine_orders (lines : List OrderItem) (s : State) :
    (lines.foldl debitLine s).orders = s.orders := by
  induction lines generalizing s with
  | nil => rfl
  | cons l ls ih =>
    rw [List.foldl_cons, ih]
    unfold debitLine
    split <;> rfl

theorem debitLine_items (s : State) (l : OrderItem) (k : ItemId) :
    (debitLine s l).items k =
      if l.item = k then (s.items k).map (fun it => debit it l.quantity) else s.items k := by
  unfold debitLine
  by_cases hk : l.item = k
  · subst hk
    cases h : s.items l.item <;> simp [h, put]
  · cases h : s.items l.item
    · simp [h, hk]
    · have hk' : ¬ k = l.item := fun e => hk e.symm
      simp [h, hk, hk', put]

theorem foldl_debitLine_items (lines : List OrderItem) (s : State) (k : ItemId) :
    (lines.foldl debitLine s).items k =
      (s.items k).map (fun it => debitMany it (quantitiesFor k lines)) := by
  induction lines generalizing s with
  | nil => simp [debitMany, quantitiesFor]
  | cons l ls ih =>
    rw [List.foldl_cons, ih, debitLine_items]
    by_cases hk : l.item = k
    · cases h : s.items k <;> simp [hk, h, quantitiesFor, debitMany]
    · cases h : s.items k <;> simp [hk, h, quantitiesFor, debitMany]

theorem debitMany_stock (item : Item) (qs : List Int) (hq : ∀ q ∈ qs, 0 ≤ q)
    (h : 0 ≤ item.stock ∨ qs ≠ []) :
    (debitMany item qs).stock = max 0 (item.stock - qs.sum) := by
  induction qs generalizing item with
  | nil =>
    rcases h with h | h
    · simp [debitMany, h]
    · exact absurd rfl h
  | cons a as ih =>
    have ha : 0 ≤ a := hq a (List.mem_cons_self _ _)
    have has : ∀ q ∈ as, 0 ≤ q := fun q hq' => hq q (List.mem_cons_of_mem _ hq')
    have hsum : 0 ≤ as.sum := List.sum_nonneg has
    have := ih (debit item a) has (Or.inl (debit_stock_nonneg item a))
    simp only [debitMany, List.foldl_cons, List.sum_cons] at this ⊢
    rw [this, debit_stock]
    omega

theorem completePayment_ok (s : State) (id : OrderId) (user : User) (o : Order)
    (h : s.orders id = some o) (hu : o.user = user.id ∨ user.role = .admin) :
    completePayment s id user =
      (.ok { o with paymentStatus := .completed },
        ⟨(o.items.foldl debitLine
            ⟨s.items, put s.orders id { o with paymentStatus := .completed }, s.emitted⟩).items,
          put s.orders id { o with paymentStatus := .completed },
          (o.items.foldl debitLine
            ⟨s.items, put s.orders id { o with paymentStatus := .completed }, s.emitted⟩).emitted
            ++ [Event.paymentUpdate id .completed]⟩) := by
  have hc : ¬ (o.user ≠ user.id ∧ user.role ≠ .admin) := by
    rintro ⟨h1, h2⟩
    rcases hu with hu | hu
    · exact h1 hu
    · exact h2 hu
  unfold completePayment
  simp only [h, hc, if_false, foldl_debitLine_orders]

theorem completePayment_absent (s : State) (id : OrderId) (user : User)
    (h : s.orders id = none) :
    completePayment s id user = (.error (.errorResponse (.orderNotFound id) 404), s) := by
  unfold completePayment
  simp only [h]

theorem completePayment_unauthorized (s : State) (id : OrderId) (user : User) (o : Order)
    (h : s.orders id = some o) (h1 : o.user ≠ user.id) (h2 : user.role ≠ .admin) :
    completePayment s id user = (.error (.errorResponse .notAuthorized 401), s) := by
  unfold completePayment
  simp only [h]
  rw [if_pos ⟨h1, h2⟩]

/-- C8: `completePayment` answers an absent order id with the 404
`orderNotFound` response and a requester who is neither the owner nor an admin
with the 401 `notAuthorized` response, in both cases returning the state it was
given (orders, items and emitted events unchanged); for the owner and for an
admin it succeeds, so it is never rejected as unauthorized. -/
theorem completePayment_rejections (s : State) (id : OrderId) (user : User) :
    (s.orders id = none →
      completePayment s id user = (.error (.errorResponse (.orderNotFound id) 404), s)) ∧
    (∀ o, s.orders id = some o → o.user ≠ user.id → user.role ≠ .admin →
      completePayment s id user = (.error (.errorResponse .notAuthorized 401), s)) ∧
    (∀ o, s.orders id = some o → (o.user = user.id ∨ user.role = .admin) →
      (completePayment s id user).1 = .ok { o with paymentStatus := .completed } ∧
      (completePayment s id user).1 ≠ .error (.errorResponse .notAuthorized 401)) := by
  refine ⟨completePayment_absent s id user, completePayment_unauthorized s id user, ?_⟩
  · intro o h hu
    rw [completePayment_ok s id user o h hu]
    exact ⟨rfl, fun e => by cases e⟩

theorem completePayment_rejections_witness :
    completePayment shopWithOrder 8 alice =
        (.error (.errorResponse (.orderNotFound 8) 404), shopWithOrder) ∧
      completePayment shopWithOrder 7 bob =
        (.error (.errorResponse .notAuthorized 401), shopWithOrder) ∧
      (completePayment shopWithOrder 7 alice).1 ≠ .error (.errorResponse .notAuthorized 401) ∧
      (completePayment shopWithOrder 7 carol).1 ≠ .error (.errorResponse .notAuthorized 401) :=
  ⟨(completePayment_rejections shopWithOrder 8 alice).1 (by decide),
    (completePayment_rejections shopWithOrder 7 bob).2.1
      ⟨1, [⟨1, "Tea", 10, 3⟩], 30, .cod, .pending, .placed⟩ (by decide) (by decide) (by decide),
    ((completePayment_rejections shopWithOrder 7 alice).2.2
      ⟨1, [⟨1, "Tea", 10, 3⟩], 30, .cod, .pending, .placed⟩ (by decide) (by decide)).2,
    ((completePayment_rejections shopWithOrder 7 carol).2.2
      ⟨1, [⟨1, "Tea", 10, 3⟩], 30, .cod, .pending, .placed⟩ (by decide) (by decide)).2⟩

/-- C5: for an existing order whose lines all have quantity at least 1 and a
requester who is its owner or an admin, `completePayment` succeeds and stores
the order with `paymentStatus = completed`; an item that does not exist stays
absent (its lines are skipped), an item referenced by no line is unchanged, and
an existing item (referenced by a line, or of non-negative stock) ends with
stock `max 0 (stock before - sum of the quantities of the lines referencing
it)`; a second call succeeds again and leaves `paymentStatus = completed`. -/
theorem completePayment_debits (s : State) (id : OrderId) (user : User) (o : Order)
    (h : s.orders id = some o) (hq : ∀ l ∈ o.items, 1 ≤ l.quantity)
    (hu : o.user = user.id ∨ user.role = .admin) :
    (completePayment s id user).1 = .ok { o with paymentStatus := .completed } ∧
    (completePayment s id user).2.orders id = some { o with paymentStatus := .completed } ∧
    (∀ k, s.items k = none → (completePayment s id user).2.items k = none) ∧
    (∀ k it, s.items k = some it → (∀ l ∈ o.items, l.item ≠ k) →
      (completePayment s id user).2.items k = some it) ∧
    (∀ k it, s.items k = some it → (0 ≤ it.stock ∨ ∃ l ∈ o.items, l.item = k) →
      ∃ it', (completePayment s id user).2.items k = some it' ∧
        it'.stock = max 0 (it.stock - (quantitiesFor k o.items).sum)) ∧
    (completePayment (completePayment s id user).2 id user).1 =
      .ok { o with paymentStatus := .completed } ∧
    ((completePayment (completePayment s id user).2 id user).2.orders id).map
      (·.paymentStatus) = some .completed := by
  have hstored : (completePayment s id user).2.orders id =
      some { o with paymentStatus := .completed } := by
    rw [completePayment_ok s id user o h hu]
    simp [put]
  have hitems : ∀ k, (completePayment s id user).2.items k =
      (s.items k).map (fun it => debitMany it (quantitiesFor k o.items)) := by
    intro k
    rw [completePayment_ok s id user o h hu]
    exact foldl_debitLine_items o.items _ k
  refine ⟨?_, hstored, ?_, ?_, ?_, ?_, ?_⟩
  · rw [completePayment_ok s id user o h hu]
  · intro k hk
    rw [hitems, hk]
    rfl
  · intro k it hk hno
    rw [hitems, hk]
    have hempty : quantitiesFor k o.items = [] := by
      unfold quantitiesFor
      rw [List.map_eq_nil_iff, List.filter_eq_nil_iff]
      intro l hl
      simpa using hno l hl
    simp [hempty, debitMany]
  · intro k it hk hcase
    refine ⟨debitMany it (quantitiesFor k o.items), ?_, ?_⟩
    · rw [hitems, hk]
      rfl
    · apply debitMany_stock
      · intro q hq'
        unfold quantitiesFor at hq'
        rw [List.mem_map] at hq'
        obtain ⟨l, hl, rfl⟩ := hq'
        have := hq l (List.mem_of_mem_filter hl)
        omega
      · rcases hcase with h0 | ⟨l, hl, hlk⟩
        · exact Or.inl h0
        · right
          intro hnil
          unfold quantitiesFor at hnil
          rw [List.map_eq_nil_iff, List.filter_eq_nil_iff] at hnil
          exact absurd hlk (by simpa using hnil l hl)
  · rw [completePayment_ok _ id user _ hstored hu]
  · rw [completePayment_ok _ id user _ hstored hu]
    simp [put]

theorem completePayment_debits_witness :
    (completePayment shopAfterDelete 8 bob).1 = .ok ⟨2, bobsLines, 77, .qr, .completed, .placed⟩ ∧
      (completePayment shopAfterDelete 8 bob).2.orders 8 =
        some ⟨2, bobsLines, 77, .qr, .completed, .placed⟩ ∧
      (completePayment shopAfterDelete 8 bob).2.items 3 = none ∧
      (completePayment shopAfterDelete 8 bob).2.items 2 = some chips ∧
      (∃ it', (completePayment shopAfterDelete 8 bob).2.items 1 = some it' ∧
        it'.stock = max 0 (5 - (3 + 4))) ∧
      (completePayment (completePayment shopAfterDelete 8 bob).2 8 bob).1 =
        .ok ⟨2, bobsLines, 77, .qr, .completed, .placed⟩ :=
  have t := completePayment_debits shopAfterDelete 8 bob ⟨2, bobsLines, 77, .qr, .pending, .placed⟩
    (by decide) (by decide) (by decide)
  ⟨t.1, t.2.1, t.2.2.1 3 (by decide), t.2.2.2.1 2 chips (by decide) (by decide),
    t.2.2.2.2.1 1 tea (by decide) (Or.inl (by decide)), t.2.2.2.2.2.1⟩

theorem debitLine_emitted (s : State) (l : OrderItem) :
    (debitLine s l).emitted =
      s.emitted ++
        ((s.items l.item).map fun it => Event.stockUpdate l.item (debit it l.quantity).stock).toList := by
  unfold debitLine
  cases h : s.items l.item <;> simp [h]

theorem expectedStockEvent_append_lt (items : ItemId → Option Item) (lines : List OrderItem)
    (l : OrderItem) (i : Nat) (hi : i < lines.length) :
    expectedStockEvent items (lines ++ [l]) i = expectedStockEvent items lines i := by
  unfold expectedStockEvent
  rw [List.getElem?_append_left hi, List.take_append_of_le_length (by omega)]

theorem expectedStockEvent_append_length (items : ItemId → Option Item)
    (lines : List OrderItem) (l : OrderItem) :
    expectedStockEvent items (lines ++ [l]) lines.length =
      (items l.item).map fun it =>
        Event.stockUpdate l.item
          (debit (debitMany it (quantitiesFor l.item lines)) l.quantity).stock := by
  unfold expectedStockEvent
  have htake : (lines ++ [l]).take (lines.length + 1) = lines ++ [l] :=
    List.take_of_length_le (by simp)
  have hq : quantitiesFor l.item (lines ++ [l]) = quantitiesFor l.item lines ++ [l.quantity] := by
    simp [quantitiesFor, List.filter_append]
  simp [htake, hq, debitMany, List.foldl_append]

theorem expectedStockEvents_append (items : ItemId → Option Item) (lines : List OrderItem)
    (l : OrderItem) :
    expectedStockEvents items (lines ++ [l]) =
      expectedStockEvents items lines ++
        ((items l.item).map fun it =>
          Event.stockUpdate l.item
            (debit (debitMany it (quantitiesFor l.item lines)) l.quantity).stock).toList := by
  unfold expectedStockEvents
  rw [List.length_append, List.length_singleton, List.range_succ, List.filterMap_append]
  congr 1
  · apply List.filterMap_congr
    intro i hi
    exact expectedStockEvent_append_lt items lines l i (List.mem_range.mp hi)
  · rw [List.filterMap_cons, expectedStockEvent_append_length]
    cases items l.item <;> simp

theorem foldl_debitLine_emitted (lines : List OrderItem) (s : State) :
    (lines.foldl debitLine s).emitted = s.emitted ++ expectedStockEvents s.items lines := by
  induction lines using List.reverseRecOn with
  | nil => simp [expectedStockEvents]
  | append_singleton ls l ih =>
    rw [List.foldl_append, List.foldl_cons, List.foldl_nil, debitLine_emitted, ih,
      foldl_debitLine_items, expectedStockEvents_append, List.append_assoc]
    cases s.items l.item <;> simp

theorem expectedStockEvents_length (items : ItemId → Option Item) (lines : List OrderItem) :
    (expectedStockEvents items lines).length =
      (lines.filter fun l => (items l.item).isSome).length := by
  induction lines using List.reverseRecOn with
  | nil => simp [expectedStockEvents]
  | append_singleton ls l ih =>
    rw [expectedStockEvents_append, List.length_append, ih, List.filter_append,
      List.length_append]
    cases h : items l.item <;> simp [h]

theorem expectedStockEvents_stockUpdate (items : ItemId → Option Item) (lines : List OrderItem) :
    ∀ e ∈ expectedStockEvents items lines, ∃ k n, e = Event.stockUpdate k n := by
  intro e he
  unfold expectedStockEvents at he
  rw [List.mem_filterMap] at he
  obtain ⟨i, _, hi⟩ := he
  unfold expectedStockEvent at hi
  split at hi
  · cases hi
  · rw [Option.map_eq_some'] at hi
    obtain ⟨it, _, hit⟩ := hi
    exact ⟨_, _, hit.symm⟩

/-- C9: a successful `completePayment` call appends to the emitted events
exactly the expected `stockUpdate` events (one per order line whose item
exists, in line order, carrying the item's stock right after that line's
debit) followed by one `paymentUpdate` event for the order, which is therefore
the last event and comes after every `stockUpdate` of the call. -/
theorem completePayment_events (s : State) (id : OrderId) (user : User) (r : Order)
    (hok : (completePayment s id user).1 = .ok r) :
    (completePayment s id user).2.emitted =
        s.emitted ++ expectedStockEvents s.items r.items ++
          [Event.paymentUpdate id .completed] ∧
      (expectedStockEvents s.items r.items).length =
        (r.items.filter fun l => (s.items l.item).isSome).length ∧
      (∀ e ∈ expectedStockEvents s.items r.items, ∃ k n, e = Event.stockUpdate k n) ∧
      (completePayment s id user).2.emitted.getLast? =
        some (Event.paymentUpdate id .completed) := by
  cases h : s.orders id with
  | none =>
    have := completePayment_absent s id user h
    rw [this] at hok
    cases hok
  | some o =>
    by_cases hu : o.user = user.id ∨ user.role = .admin
    · have hr : r = { o with paymentStatus := .completed } := by
        rw [completePayment_ok s id user o h hu] at hok
        cases hok
        rfl
      have hitems : r.items = o.items := by rw [hr]
      have hev : (completePayment s id user).2.emitted =
          s.emitted ++ expectedStockEvents s.items r.items ++
            [Event.paymentUpdate id .completed] := by
        rw [completePayment_ok s id user o h hu, hitems]
        simp only [foldl_debitLine_emitted]
      refine ⟨hev, expectedStockEvents_length _ _, expectedStockEvents_stockUpdate _ _, ?_⟩
      rw [hev, List.getLast?_append]
      rfl
    · have h1 : o.user ≠ user.id := fun e => hu (Or.inl e)
      have h2 : user.role ≠ .admin := fun e => hu (Or.inr e)
      have := completePayment_unauthorized s id user o h h1 h2
      rw [this] at hok
      cases hok

theorem completePayment_events_witness :
    (completePayment shopAfterDelete 8 bob).2.emitted =
        shopAfterDelete.emitted ++ expectedStockEvents shopAfterDelete.items bobsLines ++
          [Event.paymentUpdate 8 .completed] ∧
      expectedStockEvents shopAfterDelete.items bobsLines =
        [Event.stockUpdate 1 2, Event.stockUpdate 1 0] :=
  ⟨(completePayment_events shopAfterDelete 8 bob ⟨2, bobsLines, 77, .qr, .completed, .placed⟩
      (by decide)).1, by decide⟩

/-! ## createOrder: the outcome -/

theorem createOrderLoop_ok (items : ItemId → Option Item) (lines : List OrderRequestItem)
    (total : Int) (acc : List OrderItem) (t : Int) (ois : List OrderItem)
    (h : createOrderLoop items lines total acc = .ok (t, ois)) :
    t = total + (lines.map (lineAmount items)).sum ∧
      ois.map some = acc.map some ++ lines.map (snapshot items) ∧
      ∀ l ∈ lines, offends items l = false := by
  induction lines generalizing total acc with
  | nil =>
    simp only [createOrderLoop, Except.ok.injEq, Prod.mk.injEq] at h
    obtain ⟨rfl, rfl⟩ := h
    simp
  | cons l ls ih =>
    unfold createOrderLoop at h
    cases hit : items l.item with
    | none => simp [hit] at h
    | some it =>
      simp only [hit] at h
      by_cases hlt : it.stock < l.quantity
      · simp [hlt] at h
      · rw [if_neg hlt] at h
        obtain ⟨h1, h2, h3⟩ := ih _ _ h
        refine ⟨?_, ?_, ?_⟩
        · rw [h1]
          simp [lineAmount, hit, add_assoc]
        · rw [h2]
          simp [snapshot, hit]
        · intro x hx
          rcases List.mem_cons.mp hx with rfl | hx
          · simp [offends, hit, hlt]
          · exact h3 x hx

theorem createOrderLoop_skip (items : ItemId → Option Item) (pre rest : List OrderRequestItem)
    (total : Int) (acc : List OrderItem) (hpre : ∀ x ∈ pre, offends items x = false) :
    ∃ total' acc', createOrderLoop items (pre ++ rest) total acc =
      createOrderLoop items rest total' acc' := by
  induction pre generalizing total acc with
  | nil => exact ⟨total, acc, rfl⟩
  | cons l ls ih =>
    have hl := hpre l (List.mem_cons_self _ _)
    have hls : ∀ x ∈ ls, offends items x = false := fun x hx =>
      hpre x (List.mem_cons_of_mem _ hx)
    unfold offends at hl
    cases hit : items l.item with
    | none => simp [hit] at hl
    | some it =>
      simp only [hit, decide_eq_false_iff_not] at hl
      obtain ⟨t', a', h'⟩ := ih (total + it.price * l.quantity)
        (acc ++ [⟨l.item, it.name, it.price, l.quantity⟩]) hls
      refine ⟨t', a', ?_⟩
      rw [List.cons_append, createOrderLoop]
      simp only [hit, if_neg hl]
      exact h'

theorem createOrderLoop_total (items : ItemId → Option Item) (lines : List OrderRequestItem)
    (total : Int) (acc : List OrderItem) (h : ∀ x ∈ lines, offends items x = false) :
    ∃ t ois, createOrderLoop items lines total acc = .ok (t, ois) := by
  obtain ⟨t', a', h'⟩ := createOrderLoop_skip items lines [] total acc h
  rw [List.append_nil] at h'
  exact ⟨t', a', by rw [h']; rfl⟩

theorem createOrder_loop_error (s : State) (newId : OrderId) (user : User)
    (body : CreateOrderBody) (lines : List OrderRequestItem) (e : Failure)
    (hb : body.items = some lines)
    (hloop : createOrderLoop s.items lines 0 [] = .error e) :
    createOrder s newId user body = (.error e, s) := by
  cases lines with
  | nil => simp [createOrderLoop] at hloop
  | cons l ls =>
    unfold createOrder
    simp only [hb, hloop]

theorem createOrder_loop_ok (s : State) (newId : OrderId) (user : User)
    (body : CreateOrderBody) (lines : List OrderRequestItem) (t : Int) (ois : List OrderItem)
    (hb : body.items = some lines) (hne : lines ≠ [])
    (hloop : createOrderLoop s.items lines 0 [] = .ok (t, ois)) :
    (∀ m, body.paymentMethod = some m → ois.all validateOrderItem = true →
      (createOrder s newId user body).1 =
          .ok ⟨⟨user.id, ois, t, m, .pending, .placed⟩,
            if m = .qr then some (generateQRCode newId t) else none⟩ ∧
        (createOrder s newId user body).2.orders =
          put s.orders newId ⟨user.id, ois, t, m, .pending, .placed⟩) ∧
    ((body.paymentMethod = none ∨ ois.all validateOrderItem = false) →
      createOrder s newId user body = (.error .validationError, s)) := by
  cases lines with
  | nil => exact absurd rfl hne
  | cons l ls =>
    constructor
    · intro m hm hv
      unfold createOrder
      simp only [hb, hloop, Order.create, hm, hv, if_true]
      exact ⟨trivial, trivial⟩
    · intro hbad
      unfold createOrder
      simp only [hb, hloop, Order.create]
      cases hm : body.paymentMethod with
      | none => rfl
      | some m =>
        rcases hbad with hbad | hbad
        · rw [hm] at hbad
          cases hbad
        · simp [hbad]

theorem createOrder_no_lines (s : State) (newId : OrderId) (user : User)
    (body : CreateOrderBody) (hb : body.items = none ∨ body.items = some []) :
    createOrder s newId user body = (.error (.errorResponse .addItems 400), s) := by
  unfold createOrder
  rcases hb with hb | hb <;> simp only [hb]

theorem createOrder_ok_inv (s : State) (newId : OrderId) (user : User)
    (body : CreateOrderBody) (resp : CreateOrderResponse)
    (hok : (createOrder s newId user body).1 = .ok resp) :
    ∃ lines t ois m, body.items = some lines ∧ lines ≠ [] ∧
      createOrderLoop s.items lines 0 [] = .ok (t, ois) ∧
      body.paymentMethod = some m ∧ ois.all validateOrderItem = true ∧
      resp.data = ⟨user.id, ois, t, m, .pending, .placed⟩ ∧
      (createOrder s newId user body).2.orders = put s.orders newId resp.data := by
  cases hb : body.items with
  | none =>
    rw [createOrder_no_lines s newId user body (Or.inl hb)] at hok
    cases hok
  | some lines =>
    by_cases hne : lines = []
    · rw [createOrder_no_lines s newId user body (Or.inr (by rw [hb, hne]))] at hok
      cases hok
    · cases hloop : createOrderLoop s.items lines 0 [] with
      | error e =>
        rw [createOrder_loop_error s newId user body lines e hb hloop] at hok
        cases hok
      | ok res =>
        obtain ⟨t, ois⟩ := res
        have hcases := createOrder_loop_ok s newId user body lines t ois hb hne hloop
        cases hm : body.paymentMethod with
        | none =>
          rw [hcases.2 (Or.inl hm)] at hok
          cases hok
        | some m =>
          cases hv : ois.all validateOrderItem with
          | false =>
            rw [hcases.2 (Or.inr hv)] at hok
            cases hok
          | true =>
            obtain ⟨h1, h2⟩ := hcases.1 m hm hv
            rw [h1] at hok
            cases hok
            exact ⟨lines, t, ois, m, rfl, hne, hloop, rfl, hv, rfl, h2⟩

theorem snapshot_sum (items : ItemId → Option Item) (lines : List OrderRequestItem)
    (ois : List OrderItem) (h : ois.map some = lines.map (snapshot items)) :
    (ois.map fun oi => oi.price * oi.quantity).sum = (lines.map (lineAmount items)).sum := by
  induction lines generalizing ois with
  | nil =>
    rw [List.map_nil, List.map_eq_nil_iff] at h
    rw [h]
    rfl
  | cons l ls ih =>
    cases ois with
    | nil => simp at h
    | cons oi rest =>
      simp only [List.map_cons, List.cons.injEq] at h
      obtain ⟨h1, h2⟩ := h
      simp only [List.map_cons, List.sum_cons, ih rest h2]
      unfold snapshot at h1
      cases hit : items l.item with
      | none => simp [hit] at h1
      | some it =>
        simp only [hit, Option.map_some', Option.some.injEq] at h1
        rw [h1]
        simp [lineAmount, hit]

theorem snapshot_valid (items : ItemId → Option Item) (lines : List OrderRequestItem)
    (ois : List OrderItem) (h : ois.map some = lines.map (snapshot items)) :
    ois.all validateOrderItem = lines.all fun x => decide (1 ≤ x.quantity) := by
  induction lines generalizing ois with
  | nil =>
    rw [List.map_nil, List.map_eq_nil_iff] at h
    rw [h]
    rfl
  | cons l ls ih =>
    cases ois with
    | nil => simp at h
    | cons oi rest =>
      simp only [List.map_cons, List.cons.injEq] at h
      obtain ⟨h1, h2⟩ := h
      simp only [List.all_cons, ih rest h2]
      unfold snapshot at h1
      cases hit : items l.item with
      | none => simp [hit] at h1
      | some it =>
        simp only [hit, Option.map_some', Option.some.injEq] at h1
        rw [h1]
        rfl

/-- C1: when `createOrder` succeeds, the created order's `totalAmount` is the
sum over the submitted lines of catalog price times requested quantity, its
lines are, in submission order and one per submitted line, the snapshots
(item id, catalog name, catalog price, requested quantity) of the submitted
lines, so the total also equals the sum of `price * quantity` over the stored
lines; the order is stored under the new id. -/
theorem createOrder_total (s : State) (newId : OrderId) (user : User)
    (body : CreateOrderBody) (resp : CreateOrderResponse)
    (hok : (createOrder s newId user body).1 = .ok resp) :
    ∃ lines, body.items = some lines ∧
      resp.data.totalAmount = (lines.map (lineAmount s.items)).sum ∧
      resp.data.items.map some = lines.map (snapshot s.items) ∧
      resp.data.items.length = lines.length ∧
      resp.data.totalAmount = (resp.data.items.map fun oi => oi.price * oi.quantity).sum ∧
      (createOrder s newId user body).2.orders newId = some resp.data := by
  obtain ⟨lines, t, ois, m, hb, _, hloop, _, _, hresp, horders⟩ :=
    createOrder_ok_inv s newId user body resp hok
  obtain ⟨ht, hois, _⟩ := createOrderLoop_ok s.items lines 0 [] t ois hloop
  simp only [List.map_nil, List.nil_append, zero_add] at ht hois
  have hlen : ois.length = lines.length := by
    have := congrArg List.length hois
    simpa using this
  refine ⟨lines, hb, ?_, ?_, ?_, ?_, ?_⟩
  · rw [hresp]
    exact ht
  · rw [hresp]
    exact hois
  · rw [hresp]
    exact hlen
  · rw [hresp]
    show t = _
    rw [snapshot_sum s.items lines ois hois]
    exact ht
  · rw [horders]
    simp [put]

theorem createOrder_total_witness :
    ∃ lines, (some [⟨1, 3⟩, ⟨2, 2⟩] : Option (List OrderRequestItem)) = some lines ∧
      (30 + 8 : Int) = (lines.map (lineAmount shop.items)).sum ∧
      ([⟨1, "Tea", 10, 3⟩, ⟨2, "Chips", 4, 2⟩] : List OrderItem).map some =
        lines.map (snapshot shop.items) :=
  have t := createOrder_total shop 7 alice ⟨some [⟨1, 3⟩, ⟨2, 2⟩], some .qr⟩
    ⟨⟨1, [⟨1, "Tea", 10, 3⟩, ⟨2, "Chips", 4, 2⟩], 38, .qr, .pending, .placed⟩,
      some (generateQRCode 7 38)⟩ (by decide)
  t.imp fun _ h => ⟨h.1, h.2.1, h.2.2.1⟩

/-- C2, as stated, fails: on the line list `[(tea, quantity 0)]` no line
offends (the item exists and 0 does not exceed its stock of 5), yet no order is
created: the order document is rejected by the schema (`quantity` has
`min: 1`). -/
theorem createOrder_zero_quantity_rejected :
    (∀ x ∈ [(⟨1, 0⟩ : OrderRequestItem)], offends shop.items x = false) ∧
      (createOrder shop 7 alice ⟨some [⟨1, 0⟩], some .cod⟩).1 = .error .validationError ∧
      (createOrder shop 7 alice ⟨some [⟨1, 0⟩], some .cod⟩).2.orders 7 = none := by
  decide

/-- C2, amended: `createOrder` answers a missing or empty line list with the
400 `addItems` response; otherwise the first offending line in line order
decides: 404 `itemNotFound` when its item is unknown, 400 `insufficientStock`
when its quantity exceeds the item's stock; when no line offends, the order is
created (`placed`, `pending`, stored under the new id) if every requested
quantity is at least 1 and the payment method is `qr` or `cod`, and rejected
with a validation error otherwise; every rejection leaves the state unchanged,
and an order is created only in the case described. -/
theorem createOrder_outcome (s : State) (newId : OrderId) (user : User)
    (body : CreateOrderBody) :
    ((body.items = none ∨ body.items = some []) →
      createOrder s newId user body = (.error (.errorResponse .addItems 400), s)) ∧
    (∀ pre l post, body.items = some (pre ++ l :: post) →
      (∀ x ∈ pre, offends s.items x = false) →
      (s.items l.item = none →
        createOrder s newId user body =
          (.error (.errorResponse (.itemNotFound l.item) 404), s)) ∧
      (∀ it, s.items l.item = some it → it.stock < l.quantity →
        createOrder s newId user body =
          (.error (.errorResponse (.insufficientStock it.name) 400), s))) ∧
    (∀ lines, body.items = some lines → lines ≠ [] →
      (∀ x ∈ lines, offends s.items x = false) →
      (∀ m, body.paymentMethod = some m → (∀ x ∈ lines, 1 ≤ x.quantity) →
        ∃ resp, (createOrder s newId user body).1 = .ok resp ∧
          resp.data.orderStatus = .placed ∧ resp.data.paymentStatus = .pending ∧
          resp.data.paymentMethod = m ∧
          (createOrder s newId user body).2.orders newId = some resp.data) ∧
      ((body.paymentMethod = none ∨ ∃ x ∈ lines, x.quantity < 1) →
        createOrder s newId user body = (.error .validationError, s))) ∧
    (∀ resp, (createOrder s newId user body).1 = .ok resp →
      ∃ lines m, body.items = some lines ∧ lines ≠ [] ∧
        (∀ x ∈ lines, offends s.items x = false) ∧ (∀ x ∈ lines, 1 ≤ x.quantity) ∧
        body.paymentMethod = some m) := by
  refine ⟨createOrder_no_lines s newId user body, ?_, ?_, ?_⟩
  · intro pre l post hb hpre
    obtain ⟨t, a, hskip⟩ := createOrderLoop_skip s.items pre (l :: post) 0 [] hpre
    constructor
    · intro hit
      apply createOrder_loop_error s newId user body _ _ hb
      rw [hskip, createOrderLoop]
      simp only [hit]
    · intro it hit hlt
      apply createOrder_loop_error s newId user body _ _ hb
      rw [hskip, createOrderLoop]
      simp only [hit, if_pos hlt]
  · intro lines hb hne hno
    obtain ⟨t, ois, hloop⟩ := createOrderLoop_total s.items lines 0 [] hno
    obtain ⟨_, hois, _⟩ := createOrderLoop_ok s.items lines 0 [] t ois hloop
    simp only [List.map_nil, List.nil_append] at hois
    have hvalid := snapshot_valid s.items lines ois hois
    have hcases := createOrder_loop_ok s newId user body lines t ois hb hne hloop
    constructor
    · intro m hm hq
      have hv : ois.all validateOrderItem = true := by
        rw [hvalid, List.all_eq_true]
        intro x hx
        exact decide_eq_true (hq x hx)
      obtain ⟨h1, h2⟩ := hcases.1 m hm hv
      refine ⟨_, h1, rfl, rfl, rfl, ?_⟩
      rw [h2]
      simp [put]
    · intro hbad
      apply hcases.2
      rcases hbad with hbad | ⟨x, hx, hlt⟩
      · exact Or.inl hbad
      · right
        rw [hvalid, List.all_eq_false]
        exact ⟨x, hx, by simpa using hlt⟩
  · intro resp hok
    obtain ⟨lines, t, ois, m, hb, hne, hloop, hm, hv, _, _⟩ :=
      createOrder_ok_inv s newId user body resp hok
    obtain ⟨_, hois, hno⟩ := createOrderLoop_ok s.items lines 0 [] t ois hloop
    simp only [List.map_nil, List.nil_append] at hois
    rw [snapshot_valid s.items lines ois hois, List.all_eq_true] at hv
    exact ⟨lines, m, hb, hne, hno, fun x hx => of_decide_eq_true (hv x hx), hm⟩

theorem createOrder_outcome_witness :
    createOrder shop 7 alice ⟨some [], some .qr⟩ =
        (.error (.errorResponse .addItems 400), shop) ∧
      createOrder shop 7 alice ⟨some [⟨1, 3⟩, ⟨9, 1⟩, ⟨2, 5⟩], some .qr⟩ =
        (.error (.errorResponse (.itemNotFound 9) 404), shop) ∧
      createOrder shop 7 alice ⟨some [⟨1, 3⟩, ⟨2, 5⟩, ⟨9, 1⟩], some .qr⟩ =
        (.error (.errorResponse (.insufficientStock "Chips") 400), shop) ∧
      (∃ resp, (createOrder shop 7 alice ⟨some [⟨1, 3⟩, ⟨2, 2⟩], some .qr⟩).1 = .ok resp ∧
        resp.data.orderStatus = .placed ∧ resp.data.paymentStatus = .pending ∧
        resp.data.paymentMethod = .qr ∧
        (createOrder shop 7 alice ⟨some [⟨1, 3⟩, ⟨2, 2⟩], some .qr⟩).2.orders 7 =
          some resp.data) ∧
      createOrder shop 7 alice ⟨some [⟨1, 3⟩, ⟨2, 0⟩], some .qr⟩ =
        (.error .validationError, shop) :=
  ⟨(createOrder_outcome shop 7 alice ⟨some [], some .qr⟩).1 (Or.inr rfl),
    ((createOrder_outcome shop 7 alice ⟨some [⟨1, 3⟩, ⟨9, 1⟩, ⟨2, 5⟩], some .qr⟩).2.1
      [⟨1, 3⟩] ⟨9, 1⟩ [⟨2, 5⟩] rfl (by decide)).1 (by decide),
    ((createOrder_outcome shop 7 alice ⟨some [⟨1, 3⟩, ⟨2, 5⟩, ⟨9, 1⟩], some .qr⟩).2.1
      [⟨1, 3⟩] ⟨2, 5⟩ [⟨9, 1⟩] rfl (by decide)).2 chips (by decide) (by decide),
    ((createOrder_outcome shop 7 alice ⟨some [⟨1, 3⟩, ⟨2, 2⟩], some .qr⟩).2.2.1
      [⟨1, 3⟩, ⟨2, 2⟩] rfl (by decide) (by decide)).1 .qr rfl (by decide),
    ((createOrder_outcome shop 7 alice ⟨some [⟨1, 3⟩, ⟨2, 0⟩], some .qr⟩).2.2.1
      [⟨1, 3⟩, ⟨2, 0⟩] rfl (by decide) (by decide)).2 (Or.inr ⟨⟨2, 0⟩, by decide, by decide⟩)⟩

/-! ## Item writes -/

/-- C10 at its failing inputs: `createItem` with stock 0 stores an item with
`isAvailable = true`, and `updateItem` with body `stock: 0` on an available
item leaves `isAvailable = true` next to stock 0, whereas the sibling
`updateItemStock` with stock 0 on the same item stores `isAvailable = false`. -/
theorem item_writes_isAvailable_stale :
    (createItem shop 9 ⟨"Soup", "Tomato", 6, .food, "hot", 0⟩ (some ⟨"img/soup.png"⟩)).1 =
        .ok ⟨"Soup", "Tomato", 6, .food, "hot", 0, "img/soup.png", true⟩ ∧
      (createItem shop 9 ⟨"Soup", "Tomato", 6, .food, "hot", 0⟩ (some ⟨"img/soup.png"⟩)).2.items 9 =
        some ⟨"Soup", "Tomato", 6, .food, "hot", 0, "img/soup.png", true⟩ ∧
      (updateItem shop 1 ⟨none, none, none, none, none, some 0, none, none⟩ none).2.items 1 =
        some { tea with stock := 0, isAvailable := true } ∧
      (updateItemStock shop 1 0).2.items 1 =
        some { tea with stock := 0, isAvailable := false } := by
  decide

end FoodOrdering
